import Mathlib

/-!
Verification development for `pyqmc/optimize_ortho.py`.

Shallow-embedding conventions used throughout this file:

* numpy float arrays are embedded as functions `Fin n → ℝ`, and arithmetic on them
  is exact real arithmetic;
* `np.exp`, `np.sqrt` and `np.max` are `Real.exp`, `Real.sqrt` and `Finset.sup'`;
* Python code that can raise is embedded with `Except`;
* the wavefunction, accumulator (`pgrad`) and parameter-transform objects are
  external collaborators (spec section 6); they enter the embedding as function
  parameters.  The parameter transform is assumed to round-trip
  (`deserialize (serialize p)` installs exactly `p`, spec section 3), so a
  wavefunction's mutable `parameters` mapping is represented by the serialized
  flat vector the transform produces for it.
-/

namespace PyqmcOrtho

/-- Embedding of `np.linalg.norm v` for a 1-d array `v`: `sqrt (Σ i, v i ^ 2)`. -/
noncomputable def npNorm {n : ℕ} (v : Fin n → ℝ) : ℝ :=
  Real.sqrt (∑ i, v i ^ 2)

/-- Embedding of `np.dot a b` for 1-d arrays. -/
def npDot {n : ℕ} (a b : Fin n → ℝ) : ℝ :=
  ∑ i, a i * b i

/-- Embedding of `np.mean f` for a 1-d array. -/
noncomputable def npMean {n : ℕ} (f : Fin n → ℝ) : ℝ :=
  (∑ k, f k) / n

/-- Embedding of `np.average(f, weights = w)` for 1-d arrays: `(Σ w·f) / (Σ w)`. -/
noncomputable def npAverage {n : ℕ} (f w : Fin n → ℝ) : ℝ :=
  (∑ k, w k * f k) / (∑ k, w k)

/-- Embedding of `optimize_ortho.py` lines 574-579: after conditioning, if the
conditioned `N_derivative` has norm greater than `1e-8`, the conditioned
`total_derivative` is replaced by
`total_derivative - np.dot(total_derivative, N_derivative) * N_derivative / norm(N_derivative)**2`;
otherwise it is left alone. -/
noncomputable def projectStep {n : ℕ} (total_derivative N_derivative : Fin n → ℝ) :
    Fin n → ℝ :=
  if 1e-8 < npNorm N_derivative then
    fun i =>
      total_derivative i -
        npDot total_derivative N_derivative * N_derivative i / npNorm N_derivative ^ 2
  else total_derivative

/-- Embedding of `optimize_ortho.py` lines 581-583: if `deriv_norm > max_step`
then `total_derivative = total_derivative * max_step / deriv_norm`. -/
noncomputable def clipStep {n : ℕ} (max_step : ℝ) (total_derivative : Fin n → ℝ) :
    Fin n → ℝ :=
  if max_step < npNorm total_derivative then
    fun i => total_derivative i * max_step / npNorm total_derivative
  else total_derivative

/-- Embedding of the first factor of `optimize_ortho.py` line 608:
`np.abs(line_data["weight"] - 1.0) > weight_boundaries`, element by element
(reference `r`, line-search candidate `c`).  The comparisons are stated over any
linear ordered field so that they are decidable over `ℚ`; the program runs them
on floating-point values. -/
def maskDeviation {K : Type} [LinearOrderedField K] {nrefs ncand : ℕ}
    (weight_boundaries : K) (weight : Fin nrefs → Fin ncand → K)
    (r : Fin nrefs) (c : Fin ncand) : Bool :=
  decide (weight_boundaries < |weight r c - 1|)

/-- Embedding of the second factor of `optimize_ortho.py` lines 608-610:
`np.abs(line_data["weight"]) > weight_boundaries`, element by element. -/
def maskMagnitude {K : Type} [LinearOrderedField K] {nrefs ncand : ℕ}
    (weight_boundaries : K) (weight : Fin nrefs → Fin ncand → K)
    (r : Fin nrefs) (c : Fin ncand) : Bool :=
  decide (weight_boundaries < |weight r c|)

/-- Embedding of `optimize_ortho.py` lines 608-611: the elementwise conjunction
of the two masks (`&` on line 608) followed by `mask = np.all(mask, axis=0)`
(reduction over the reference axis). -/
def lineSearchMask {K : Type} [LinearOrderedField K] {nrefs ncand : ℕ}
    (weight_boundaries : K) (weight : Fin nrefs → Fin ncand → K)
    (c : Fin ncand) : Bool :=
  (List.finRange nrefs).all fun r =>
    maskDeviation weight_boundaries weight r c && maskMagnitude weight_boundaries weight r c

/-- Embedding of `optimize_ortho.py` line 612: `xfit = test_tsteps[mask]`
(boolean-mask indexing keeps exactly the entries where the mask is `true`,
in index order). -/
def lineSearchXfit {K : Type} [LinearOrderedField K] {nrefs ncand : ℕ}
    (weight_boundaries : K) (weight : Fin nrefs → Fin ncand → K)
    (test_tsteps : Fin ncand → K) : List K :=
  ((List.finRange ncand).filter (lineSearchMask weight_boundaries weight)).map test_tsteps

/-- Embedding of `optimize_ortho.py` line 613: `yfit = cost[mask]`. -/
def lineSearchYfit {K : Type} [LinearOrderedField K] {nrefs ncand : ℕ}
    (weight_boundaries : K) (weight : Fin nrefs → Fin ncand → K)
    (cost : Fin ncand → K) : List K :=
  ((List.finRange ncand).filter (lineSearchMask weight_boundaries weight)).map cost

/-- Iteration record written by `optimize_ortho.py` lines 623-640 (`save_data`
handed to `ortho_hdf`).  Only the fields the claims inspect are carried; the
record is built and handed to the sink on every iteration. -/
structure IterRecord (α K : Type) where
  parameters : α
  iteration : ℕ
  line_tsteps : List K
  deriving DecidableEq

/-- Embedding of `optimize_ortho.py` lines 615-640, the tail of one outer
iteration after the line-search data has been gathered: if any candidate
survived the mask (`len(xfit) > 0`), fit the surviving pairs with
`pyqmc.linemin.stable_fit2` and move `parameters` by
`conditioner(total_derivative, condition, min_tstep)`; then install
`parameters` into the active wavefunction (lines 620-621, a transform
round-trip) and build the iteration record (lines 623-640).  `stable_fit2` and
the conditioner live in `pyqmc/linemin.py`, outside this module, and are taken
as opaque function arguments; neither is invoked when no candidate survives.
The returned triple is (parameter vector, active wavefunction's installed
parameters, iteration record). -/
def lineSearchCommit {K α : Type} [LinearOrderedField K] [Add α] {nrefs ncand : ℕ}
    (stable_fit2 : List K → List K → K) (conditioner : K → α)
    (weight_boundaries : K) (weight : Fin nrefs → Fin ncand → K)
    (test_tsteps : Fin ncand → K) (cost : Fin ncand → K)
    (parameters0 : α) (step step_offset : ℕ) :
    α × α × IterRecord α K :=
  let xfit := lineSearchXfit weight_boundaries weight test_tsteps
  let yfit := lineSearchYfit weight_boundaries weight cost
  let parameters :=
    if 0 < xfit.length then parameters0 + conditioner (stable_fit2 xfit yfit)
    else parameters0
  (parameters, parameters,
    { parameters := parameters
      iteration := step + step_offset
      line_tsteps := (List.finRange ncand).map test_tsteps })

/-- Statistic array of `dist_sample_overlap`: a numpy array abstracted as its
shape together with the values at (in-range) multi-indices. -/
structure NpArray where
  shape : List ℕ
  data : List ℕ → ℝ

/-- Keys excluded from weight-reweighted combination in `dist_sample_overlap`
(line 177). -/
def specialKeys : List String :=
  ["weight", "overlap", "overlap_gradient"]

/-- Booleanized success of an `Except` value. -/
def exceptOk {ε α : Type} : Except ε α → Bool
  | .ok _ => true
  | .error _ => false

/-- Embedding of `dist_sample_overlap` lines 177-192: one accumulation step of
the distributed combination for a single statistic `k` of partition `i`.
For a key outside `specialKeys` the partition's contribution is multiplied by
the partition's last-block weight column — `result[0]["weight"][:, -1]`,
broadcast over the trailing axes, so the factor depends only on the leading
(block) index — with one branch per supported array rank (1-d, 2-d, 3-d;
lines 178-186) and `NotImplementedError` otherwise (lines 187-190).  For a key
in `specialKeys` the contribution is `result[0][k] * confweight[i] / len(allruns)`
(line 192), with no rank restriction. -/
noncomputable def combineStat (k : String) (dfk resk : NpArray) (weightLast : ℕ → ℝ)
    (confweight_i : ℝ) (nruns : ℕ) : Except String NpArray :=
  if k ∉ specialKeys then
    match dfk.shape.length with
    | 1 => .ok ⟨dfk.shape, fun idx => dfk.data idx + resk.data idx * weightLast (idx.headD 0)⟩
    | 2 => .ok ⟨dfk.shape, fun idx => dfk.data idx + resk.data idx * weightLast (idx.headD 0)⟩
    | 3 => .ok ⟨dfk.shape, fun idx => dfk.data idx + resk.data idx * weightLast (idx.headD 0)⟩
    | _ => .error "too many/too few dimension in dist_sample_overlap"
  else
    .ok ⟨dfk.shape, fun idx => dfk.data idx + resk.data idx * confweight_i / nruns⟩

/-- Shape rule of numpy broadcasting for two 1-d operands: lengths must agree
or one of them must be `1`; the result length is the larger one.  On failure
numpy raises `ValueError: operands could not be broadcast together`. -/
def broadcastLen (n m : ℕ) : Except String ℕ :=
  if n = m ∨ n = 1 ∨ m = 1 then .ok (max n m)
  else .error "operands could not be broadcast together"

/-- Shape trace of `optimize_ortho.py` lines 542-545,
`forcing * (overlaps - Starget)`: `overlaps` has length `nrefs = len(wfs) - 1`
(created on line 506), `Starget` and `forcing` have the lengths the caller
passed (lines 463-464 only run `np.asarray`, no validation).  The subtraction
broadcasts `overlaps` with `Starget` first, then the product broadcasts
`forcing` against the result; the first incompatible pair raises. -/
def overlapDerivativeLen (nrefs lenStarget lenForcing : ℕ) : Except String ℕ :=
  match broadcastLen nrefs lenStarget with
  | .error e => .error e
  | .ok m => broadcastLen lenForcing m

/-- Observable actions of one outer iteration of `optimize_orthogonal` that are
relevant to when a `Starget`/`forcing` length mismatch can surface. -/
inductive OrthoEvent
  | sample
  deriving DecidableEq

/-- Event/error trace of one outer iteration of `optimize_orthogonal`
(lines 494-545) up to the assembly of `overlap_derivative`.  The function
entry (lines 462-493) performs no validation of the `Starget`/`forcing`
lengths: it serializes parameters, runs `np.asarray` on both arrays, builds the
`attr` dictionary, selects the conditioner and the samplers, and copies the
walker ensembles.  The iteration then runs the renormalization loop
(lines 509-527), which calls `evaluate` — a full sampling pass — at least once
(`renormRetries` counts the repetitions beyond the first), then one `evaluate`
per middle reference (lines 529-539, `nrefs - 1` of them), and only afterwards
reaches line 542 where mismatched lengths can first raise, as a numpy
broadcasting error.  Returned are the sampling events in order and the error,
if any, raised on lines 542-545. -/
def iterEvents (nrefs lenStarget lenForcing renormRetries : ℕ) :
    List OrthoEvent × Option String :=
  let events :=
    List.replicate (renormRetries + 1) OrthoEvent.sample ++
      List.replicate (nrefs - 1) OrthoEvent.sample
  match overlapDerivativeLen nrefs lenStarget lenForcing with
  | .error e => (events, some e)
  | .ok _ => (events, none)

/-- Compatibility of two 1-d numpy shapes, stated as the spec-side predicate
used to phrase when lines 542-545 raise. -/
def bcastCompatible (n m : ℕ) : Prop :=
  n = m ∨ n = 1 ∨ m = 1

/-- Embedding of `sample_overlap` line 98: with `log_values[i] = (value_i, logmag_i)`
per walker (the per-walker output of `wf.value()`),
`ref = np.max(log_values[:, 1, :], axis=0)` — the maximum log-magnitude over
the wavefunctions, separately for every walker. -/
noncomputable def soRef {nwf nconf : ℕ} [NeZero nwf]
    (logmags : Fin nwf → Fin nconf → ℝ) : Fin nconf → ℝ :=
  fun k => Finset.univ.sup' Finset.univ_nonempty (fun i => logmags i k)

/-- Embedding of `sample_overlap` line 100:
`denominator = np.sum(np.exp(2 * (log_values[:, 1, :] - ref)), axis=0)`. -/
noncomputable def soDenominator {nwf nconf : ℕ} [NeZero nwf]
    (logmags : Fin nwf → Fin nconf → ℝ) : Fin nconf → ℝ :=
  fun k => ∑ i, Real.exp (2 * (logmags i k - soRef logmags k))

/-- Embedding of `sample_overlap` line 101:
`normalized_values = log_values[:, 0, :] * np.exp(log_values[:, 1, :] - ref)`. -/
noncomputable def soNormalized {nwf nconf : ℕ} [NeZero nwf]
    (vals logmags : Fin nwf → Fin nconf → ℝ) : Fin nwf → Fin nconf → ℝ :=
  fun i k => vals i k * Real.exp (logmags i k - soRef logmags k)

/-- Embedding of `sample_overlap` lines 102-106: the per-step overlap matrix
`np.mean(np.einsum("ik,jk->ijk", normalized_values, normalized_values) / denominator, axis=-1)`. -/
noncomputable def soOverlapStep {nwf nconf : ℕ} [NeZero nwf]
    (vals logmags : Fin nwf → Fin nconf → ℝ) : Fin nwf → Fin nwf → ℝ :=
  fun i j =>
    npMean fun k =>
      soNormalized vals logmags i k * soNormalized vals logmags j k / soDenominator logmags k

/-- Embedding of `sample_overlap` lines 138-141: the rolling average inside a
block accumulates `save_dat[k] / nsteps_per_block` once per step, over the
`nsteps_per_block` steps of the block. -/
noncomputable def soBlockAverage {nsteps_per_block : ℕ}
    (stat : Fin nsteps_per_block → ℝ) : ℝ :=
  ∑ t, stat t / nsteps_per_block

/-- Statement of claim C4's formula, written from the spec's words (section 4.1):
normalized values `Ψᵢ · exp(logmag_i − ref)` with `ref` the per-walker maximum
log-magnitude over wavefunctions, denominator `Σᵢ exp(2(logmag_i − ref))`, and
`overlap[i,j]` the mean over walkers of `(normalized_i · normalized_j) / denominator`. -/
noncomputable def specStepOverlap {nwf nconf : ℕ} [NeZero nwf]
    (vals logmags : Fin nwf → Fin nconf → ℝ) : Fin nwf → Fin nwf → ℝ :=
  fun i j =>
    (∑ k,
        (vals i k * Real.exp (logmags i k - Finset.univ.sup' Finset.univ_nonempty (logmags · k))) *
          (vals j k * Real.exp (logmags j k - Finset.univ.sup' Finset.univ_nonempty (logmags · k))) /
          ∑ m, Real.exp (2 * (logmags m k - Finset.univ.sup' Finset.univ_nonempty (logmags · k)))) /
      nconf

/-- Embedding of `correlated_sample` line 242: `ref = np.max(log_values0[:, 1, :])`,
the maximum baseline log-magnitude over all wavefunctions and all walkers
(no `axis` argument: a global maximum).  The active wavefunction is the last
of the `nrefs + 1` wavefunctions. -/
noncomputable def csRef {nrefs nconf : ℕ} [NeZero nconf]
    (logs0 : Fin (nrefs + 1) → Fin nconf → ℝ) : ℝ :=
  Finset.univ.sup' Finset.univ_nonempty
    (fun p : Fin (nrefs + 1) × Fin nconf => logs0 p.1 p.2)

/-- Embedding of `correlated_sample` line 244:
`denominator = np.sum(np.exp(2 * (log_values0[:, 1, :] - ref)), axis=0)`. -/
noncomputable def csDenominator {nrefs nconf : ℕ} [NeZero nconf]
    (logs0 : Fin (nrefs + 1) → Fin nconf → ℝ) : Fin nconf → ℝ :=
  fun k => ∑ i, Real.exp (2 * (logs0 i k - csRef logs0))

/-- Embedding of `correlated_sample` line 243:
`normalized_values = log_values0[:, 0, :] * np.exp(log_values0[:, 1, :] - ref)`. -/
noncomputable def csNormalizedValues {nrefs nconf : ℕ} [NeZero nconf]
    (vals0 logs0 : Fin (nrefs + 1) → Fin nconf → ℝ) : Fin (nrefs + 1) → Fin nconf → ℝ :=
  fun i k => vals0 i k * Real.exp (logs0 i k - csRef logs0)

/-- Embedding of `correlated_sample` lines 246-252: the baseline per-wavefunction
weight, `weight[i] = mean over walkers of 1 / Σⱼ exp(-2 (logmag0_i − logmag0_j))`
(stored in `data["base_weight"]` on line 260 and still bound to the local
variable `weight` when line 284 runs). -/
noncomputable def csBaseWeight {nrefs nconf : ℕ}
    (logs0 : Fin (nrefs + 1) → Fin nconf → ℝ) : Fin (nrefs + 1) → ℝ :=
  fun i => npMean fun k => 1 / ∑ j, Real.exp (-(2 * (logs0 i k - logs0 j k)))

/-- Embedding of `correlated_sample` lines 269-271: the per-walker reweighting
factor of a candidate,
`wt = 1.0 / np.sum(np.exp(2 * log_values0[:, 1, :] - 2 * val[1]), axis=0)`,
where `val[1]` is the candidate's log-magnitude. -/
noncomputable def csWt {nrefs nconf : ℕ}
    (logs0 : Fin (nrefs + 1) → Fin nconf → ℝ) (valLog : Fin nconf → ℝ) :
    Fin nconf → ℝ :=
  fun k => 1 / ∑ i, Real.exp (2 * logs0 i k - 2 * valLog k)

/-- Embedding of `correlated_sample` line 272:
`normalized_val = val[0] * np.exp(val[1] - ref)`. -/
noncomputable def csNormalizedVal {nconf : ℕ}
    (valSign valLog : Fin nconf → ℝ) (ref : ℝ) : Fin nconf → ℝ :=
  fun k => valSign k * Real.exp (valLog k - ref)

/-- Embedding of `correlated_sample` lines 274-277: the updated mixture-density
estimate `rhoprime`, summing the references (`log_values0[0:-1]`) and the
candidate, anchored at `ref`, divided by `denominator`. -/
noncomputable def csRhoprime {nrefs nconf : ℕ} [NeZero nconf]
    (logs0 : Fin (nrefs + 1) → Fin nconf → ℝ) (valLog : Fin nconf → ℝ) :
    Fin nconf → ℝ :=
  fun k =>
    ((∑ i : Fin nrefs, Real.exp (2 * logs0 i.castSucc k - 2 * csRef logs0)) +
        Real.exp (2 * valLog k - 2 * csRef logs0)) /
      csDenominator logs0 k

/-- Embedding of `correlated_sample` line 279:
`overlap = np.einsum("k,jk->jk", normalized_val, normalized_values) / denominator`. -/
noncomputable def csOverlap {nrefs nconf : ℕ} [NeZero nconf]
    (vals0 logs0 : Fin (nrefs + 1) → Fin nconf → ℝ)
    (valSign valLog : Fin nconf → ℝ) : Fin (nrefs + 1) → Fin nconf → ℝ :=
  fun j k =>
    csNormalizedVal valSign valLog (csRef logs0) k * csNormalizedValues vals0 logs0 j k /
      csDenominator logs0 k

/-- Per-candidate entries of the `data` dictionary of `correlated_sample`
(`total`, `weight`, `overlap`, `rhoprime` at one candidate index `p`). -/
structure CandData (nwf : ℕ) where
  total : ℝ
  weight : ℝ
  overlap : Fin nwf → ℝ
  rhoprime : ℝ

/-- Embedding of `correlated_sample` lines 266-284 for one candidate parameter
vector: `valSign`/`valLog` are the recomputed `val = wf.value()` of the active
wavefunction at the candidate parameters, `datTotal` is `dat["total"]` from
`pgrad.enacc`.  Lines 281-284 store
`total = np.average(dat["total"], weights=wt)`,
`rhoprime = np.mean(rhoprime)`,
`weight = np.mean(wt) / np.mean(rhoprime)`, and
`overlap = np.mean(overlap, axis=1) / np.sqrt(np.mean(wt) * weight)` where the
`weight` in the last line is the baseline vector of lines 246-252. -/
noncomputable def csCandidate {nrefs nconf : ℕ} [NeZero nconf]
    (vals0 logs0 : Fin (nrefs + 1) → Fin nconf → ℝ)
    (valSign valLog : Fin nconf → ℝ) (datTotal : Fin nconf → ℝ) :
    CandData (nrefs + 1) :=
  { total := npAverage datTotal (csWt logs0 valLog)
    rhoprime := npMean (csRhoprime logs0 valLog)
    weight := npMean (csWt logs0 valLog) / npMean (csRhoprime logs0 valLog)
    overlap := fun j =>
      npMean (csOverlap vals0 logs0 valSign valLog j) /
        Real.sqrt (npMean (csWt logs0 valLog) * csBaseWeight logs0 j) }

/-- Mutable state touched by `correlated_sample`: the active (last)
wavefunction's parameters (represented by their serialized vector, type `α`)
and the walker ensemble (opaque, type `γ` — the function never moves walkers). -/
structure CSState (α γ : Type) where
  activeParams : α
  configs : γ
  deriving DecidableEq

/-- External collaborators of `correlated_sample` for the active wavefunction:
`value p` is the per-walker `(value, logmag)` pair of `wf.value()` after
installing parameters `p` and recomputing on the ensemble, and `enacc p` is
`pgrad.enacc(configs, wf)`'s per-walker `total` entry, which may raise. -/
structure WfModel (α : Type) (nconf : ℕ) where
  value : α → (Fin nconf → ℝ) × (Fin nconf → ℝ)
  enacc : α → Except String (Fin nconf → ℝ)

/-- Embedding of the candidate loop of `correlated_sample` (lines 261-284).
For each candidate `p`: lines 262-265 install `p` into the active
wavefunction's parameter mapping and recompute; line 266 reads `val`;
line 267 runs `pgrad.enacc`, and a raised exception propagates immediately,
carrying the state as it is at that moment (`p` still installed); otherwise
the candidate's statistics are recorded and the loop continues. -/
noncomputable def csLoop {α γ : Type} {nrefs nconf : ℕ} [NeZero nconf]
    (wf : WfModel α nconf) (vals0 logs0 : Fin (nrefs + 1) → Fin nconf → ℝ)
    (st : CSState α γ) :
    List α → Except (String × CSState α γ) (List (CandData (nrefs + 1)) × CSState α γ)
  | [] => .ok ([], st)
  | p :: ps =>
    let st1 : CSState α γ := { st with activeParams := p }
    let val := wf.value p
    match wf.enacc p with
    | .error e => .error (e, st1)
    | .ok datTotal =>
      match csLoop wf vals0 logs0 st1 ps with
      | .error es => .error es
      | .ok (rest, st2) =>
          .ok (csCandidate vals0 logs0 val.1 val.2 datTotal :: rest, st2)

/-- Embedding of `correlated_sample` (lines 237-290).  Line 237 records the
entry parameters `p0`; lines 238-240 recompute every wavefunction and read the
baseline values — the references' per-walker `(value, logmag)` pairs are the
fixed array `refs`, the active wavefunction's baseline pair is `wf.value p0`,
and the active wavefunction is last (`Fin.snoc`).  The candidate loop then
runs, and lines 288-289 restore the entry parameters through a transform
round-trip — but only on the normal return path; the Python function has no
`try/finally`, so an exception inside the loop leaves the candidate installed. -/
noncomputable def correlated_sample {α γ : Type} {nrefs nconf : ℕ} [NeZero nconf]
    (wf : WfModel α nconf)
    (refs : Fin nrefs → (Fin nconf → ℝ) × (Fin nconf → ℝ))
    (st : CSState α γ) (parameters : List α) :
    Except (String × CSState α γ) (List (CandData (nrefs + 1)) × CSState α γ) :=
  let p0 := st.activeParams
  let lv0 : Fin (nrefs + 1) → (Fin nconf → ℝ) × (Fin nconf → ℝ) :=
    Fin.snoc refs (wf.value p0)
  match csLoop wf (fun i => (lv0 i).1) (fun i => (lv0 i).2) st parameters with
  | .error es => .error es
  | .ok (data, st2) => .ok (data, { st2 with activeParams := p0 })

/-- Exit state of a `correlated_sample` run, on either path. -/
def csExitState {α γ : Type} {n : ℕ}
    (r : Except (String × CSState α γ) (List (CandData n) × CSState α γ)) :
    CSState α γ :=
  match r with
  | .error (_, st) => st
  | .ok (_, st) => st

/-- Statement of claim C5's reweighting formula, written from the spec's words
(section 4.2): `wt = 1 / Σᵢ exp(2 (logmag_i,baseline − logmag_active,candidate))`. -/
noncomputable def specWt {nrefs nconf : ℕ}
    (logs0 : Fin (nrefs + 1) → Fin nconf → ℝ) (valLog : Fin nconf → ℝ) :
    Fin nconf → ℝ :=
  fun k => 1 / ∑ i, Real.exp (2 * (logs0 i k - valLog k))

/-- Statement of claim C3's rescaling, written from the spec's words
(section 4.2): the candidate/reference overlap rescaled by dividing by
`sqrt(mean(wt) · mean(rhoprime))`. -/
noncomputable def specOverlapRescaled {nrefs nconf : ℕ} [NeZero nconf]
    (vals0 logs0 : Fin (nrefs + 1) → Fin nconf → ℝ)
    (valSign valLog : Fin nconf → ℝ) : Fin (nrefs + 1) → ℝ :=
  fun j =>
    npMean (csOverlap vals0 logs0 valSign valLog j) /
      Real.sqrt (npMean (csWt logs0 valLog) * npMean (csRhoprime logs0 valLog))

theorem npNorm_sq {n : ℕ} (v : Fin n → ℝ) : npNorm v ^ 2 = ∑ i, v i ^ 2 :=
  Real.sq_sqrt (Finset.sum_nonneg fun i _ => sq_nonneg (v i))

theorem npNorm_smul {n : ℕ} (c : ℝ) (v : Fin n → ℝ) :
    npNorm (fun i => c * v i) = |c| * npNorm v := by
  rw [npNorm, npNorm]
  have h : ∑ i, (c * v i) ^ 2 = c ^ 2 * ∑ i, v i ^ 2 := by
    rw [Finset.mul_sum]
    exact Finset.sum_congr rfl fun i _ => by ring
  rw [h, Real.sqrt_mul (sq_nonneg c), Real.sqrt_sq_eq_abs]

/-- C6.  In each outer iteration of `optimize_orthogonal`, whenever the
conditioned `N_derivative` has norm greater than `1e-8`, after the projection
step (lines 574-579) the dot product of the conditioned `total_derivative` and
the conditioned `N_derivative` is exactly zero in exact real arithmetic;
whenever its norm is at most `1e-8`, `total_derivative` is left unchanged. -/
theorem projection_orthogonality {n : ℕ} (td Nd : Fin n → ℝ) :
    (1e-8 < npNorm Nd → npDot (projectStep td Nd) Nd = 0) ∧
    (npNorm Nd ≤ 1e-8 → projectStep td Nd = td) := by
  constructor
  · intro h
    have hpos : 0 < ∑ i, Nd i ^ 2 := by
      rcases (Finset.sum_nonneg fun i _ => sq_nonneg (Nd i)).lt_or_eq with hlt | heq
      · exact hlt
      · exfalso
        have h0 : npNorm Nd = 0 := by rw [npNorm, ← heq, Real.sqrt_zero]
        rw [h0] at h
        norm_num at h
    have hsq : npNorm Nd ^ 2 = ∑ i, Nd i ^ 2 := npNorm_sq Nd
    have hne : (∑ i, Nd i ^ 2) ≠ 0 := ne_of_gt hpos
    rw [projectStep, if_pos h, npDot]
    have expand : ∀ i : Fin n,
        (td i - npDot td Nd * Nd i / npNorm Nd ^ 2) * Nd i
          = td i * Nd i - npDot td Nd / (∑ j, Nd j ^ 2) * Nd i ^ 2 := by
      intro i
      rw [hsq]
      ring
    rw [Finset.sum_congr rfl fun i _ => expand i, Finset.sum_sub_distrib, ← Finset.mul_sum,
      div_mul_cancel₀ _ hne, npDot, sub_self]
  · intro h
    rw [projectStep, if_neg (not_lt.mpr h)]

/-- Witness for C6: at `total_derivative = (1,1)` and `N_derivative = (1,0)`
the norm hypothesis holds and the projected dot product is zero; at
`N_derivative = (0,0)` the norm is at most `1e-8` and the vector is unchanged. -/
theorem projection_orthogonality_witness :
    npDot (projectStep (fun _ : Fin 2 => (1 : ℝ)) ![1, 0]) ![1, 0] = 0 ∧
    projectStep (fun _ : Fin 2 => (1 : ℝ)) ![0, 0] = fun _ => 1 := by
  have h1 : npNorm ![(1 : ℝ), 0] = 1 := by
    rw [npNorm, Fin.sum_univ_two]
    norm_num
  have h2 : npNorm ![(0 : ℝ), 0] = 0 := by
    rw [npNorm, Fin.sum_univ_two]
    norm_num
  exact ⟨(projection_orthogonality _ _).1 (by rw [h1]; norm_num),
    (projection_orthogonality _ _).2 (by rw [h2]; norm_num)⟩

/-- C7.  Step clipping in `optimize_orthogonal` (lines 581-583): if the
gradient's norm is at most `max_step`, clipping leaves it unchanged; otherwise
(for the positive `max_step` the driver is configured with) the clipped vector
has norm exactly `max_step` and is a positive scalar multiple of the original. -/
theorem step_clipping {n : ℕ} (max_step : ℝ) (td : Fin n → ℝ) :
    (npNorm td ≤ max_step → clipStep max_step td = td) ∧
    (0 < max_step → max_step < npNorm td →
      npNorm (clipStep max_step td) = max_step ∧
      ∃ c : ℝ, 0 < c ∧ clipStep max_step td = fun i => c * td i) := by
  constructor
  · intro h
    rw [clipStep, if_neg (not_lt.mpr h)]
  · intro hms h
    have hnorm : 0 < npNorm td := lt_trans hms h
    have hne : npNorm td ≠ 0 := ne_of_gt hnorm
    have hc : 0 < max_step / npNorm td := div_pos hms hnorm
    have heq : clipStep max_step td = fun i => max_step / npNorm td * td i := by
      rw [clipStep, if_pos h]
      funext i
      ring
    refine ⟨?_, max_step / npNorm td, hc, heq⟩
    rw [heq, npNorm_smul, abs_of_pos hc, div_mul_cancel₀ _ hne]

/-- Witness for C7: with `max_step = 10` the vector `(3,4)` (norm `5`) is
unchanged; with `max_step = 1` it is rescaled to norm exactly `1`, by a
positive factor. -/
theorem step_clipping_witness :
    clipStep 10 ![(3 : ℝ), 4] = ![3, 4] ∧
    npNorm (clipStep 1 ![(3 : ℝ), 4]) = 1 ∧
    ∃ c : ℝ, 0 < c ∧ clipStep 1 ![(3 : ℝ), 4] = fun i => c * ![(3 : ℝ), 4] i := by
  have h5 : npNorm ![(3 : ℝ), 4] = 5 := by
    rw [npNorm, Fin.sum_univ_two]
    norm_num
    rw [show (25 : ℝ) = 5 ^ 2 by norm_num, Real.sqrt_sq (by norm_num : (0 : ℝ) ≤ 5)]
  refine ⟨(step_clipping 10 _).1 (by rw [h5]; norm_num), ?_⟩
  obtain ⟨hn, hex⟩ := (step_clipping 1 ![(3 : ℝ), 4]).2 (by norm_num) (by rw [h5]; norm_num)
  exact ⟨hn, hex⟩

theorem lineSearchMask_const_one (c : Fin 1) :
    lineSearchMask (3 / 10 : ℚ) (fun _ _ : Fin 1 => 1) c = false := by
  rw [lineSearchMask]
  refine List.all_eq_false.mpr ⟨0, by simp, ?_⟩
  simp [maskDeviation, maskMagnitude]
  norm_num

/-- C1, counterexample.  The claim says a candidate enters the fit only if
every reference has `|weight - 1| ≤ weight_boundaries`, and is excluded when
some reference deviates by more.  With one reference, one candidate,
`weight = 1/2` and `weight_boundaries = 3/10`, the deviation `|1/2 - 1| = 1/2`
exceeds `3/10`, yet the source mask (lines 608-611) selects the candidate;
and a candidate with `weight = 1` (zero deviation), which the claim admits,
is excluded by the source mask. -/
theorem line_search_filter_counterexample :
    lineSearchMask (3 / 10 : ℚ) (fun _ _ : Fin 1 => 1 / 2) (0 : Fin 1) = true ∧
    (3 / 10 : ℚ) < |(1 / 2 : ℚ) - 1| ∧
    lineSearchMask (3 / 10 : ℚ) (fun _ _ : Fin 1 => 1) (0 : Fin 1) = false := by
  refine ⟨?_, by norm_num [abs_of_pos], lineSearchMask_const_one 0⟩
  rw [lineSearchMask]
  refine List.all_eq_true.mpr fun r _ => ?_
  simp only [maskDeviation, maskMagnitude, Bool.and_eq_true, decide_eq_true_eq]
  norm_num [abs_of_pos]

/-- C1, amended.  A candidate step size enters the `(step, cost)` fit if and
only if, for **every** reference, both `|weight - 1| > weight_boundaries` and
`|weight| > weight_boundaries`: the filter is the conjunction of the two
per-reference conditions, with `>` in place of the claim's `≤` — the code
keeps exactly the candidates whose reweighting factor deviates from `1` (and
from `0`) by more than `weight_boundaries` for all references. -/
theorem line_search_filter_amended {K : Type} [LinearOrderedField K]
    {nrefs ncand : ℕ} (wb : K) (weight : Fin nrefs → Fin ncand → K) (c : Fin ncand) :
    lineSearchMask wb weight c = true ↔
      ∀ r : Fin nrefs, wb < |weight r c - 1| ∧ wb < |weight r c| := by
  simp [lineSearchMask, maskDeviation, maskMagnitude, List.all_eq_true, List.mem_finRange]

/-- C10.  Line-search degeneracy is a no-op iteration: when no candidate
passes the reliability mask, the surviving set `xfit` is empty, so the fit and
the parameter update (lines 615-618) are skipped; the parameter vector and the
active wavefunction's installed parameters at the end of the iteration equal
their values from before the line search, no fitting code that could raise is
invoked, and the iteration record is still built, with the correct iteration
number (lines 620-640). -/
theorem line_search_degeneracy_noop {K α : Type} [LinearOrderedField K] [Add α]
    {nrefs ncand : ℕ} (stable_fit2 : List K → List K → K) (conditioner : K → α)
    (wb : K) (weight : Fin nrefs → Fin ncand → K)
    (test_tsteps cost : Fin ncand → K) (p0 : α) (step step_offset : ℕ)
    (h : ∀ c, lineSearchMask wb weight c = false) :
    (lineSearchCommit stable_fit2 conditioner wb weight test_tsteps cost p0
        step step_offset).1 = p0 ∧
    (lineSearchCommit stable_fit2 conditioner wb weight test_tsteps cost p0
        step step_offset).2.1 = p0 ∧
    (lineSearchCommit stable_fit2 conditioner wb weight test_tsteps cost p0
        step step_offset).2.2.parameters = p0 ∧
    (lineSearchCommit stable_fit2 conditioner wb weight test_tsteps cost p0
        step step_offset).2.2.iteration = step + step_offset := by
  have hx : lineSearchXfit wb weight test_tsteps = [] := by
    rw [lineSearchXfit, List.filter_eq_nil_iff.mpr fun a _ => by simp [h a], List.map_nil]
  simp [lineSearchCommit, hx]

/-- Witness for C10: with one reference whose reweighting factor is exactly
`1` at the single candidate, the mask rejects every candidate and the
iteration commits no change. -/
theorem line_search_degeneracy_noop_witness :
    (lineSearchCommit (fun _ _ => (0 : ℚ)) (fun _ => (0 : ℚ)) (3 / 10 : ℚ)
        (fun _ _ : Fin 1 => 1) (fun _ => 0) (fun _ => 0) (5 : ℚ) 2 3).1 = 5 ∧
    (lineSearchCommit (fun _ _ => (0 : ℚ)) (fun _ => (0 : ℚ)) (3 / 10 : ℚ)
        (fun _ _ : Fin 1 => 1) (fun _ => 0) (fun _ => 0) (5 : ℚ) 2 3).2.1 = 5 ∧
    (lineSearchCommit (fun _ _ => (0 : ℚ)) (fun _ => (0 : ℚ)) (3 / 10 : ℚ)
        (fun _ _ : Fin 1 => 1) (fun _ => 0) (fun _ => 0) (5 : ℚ) 2 3).2.2.parameters = 5 ∧
    (lineSearchCommit (fun _ _ => (0 : ℚ)) (fun _ => (0 : ℚ)) (3 / 10 : ℚ)
        (fun _ _ : Fin 1 => 1) (fun _ => 0) (fun _ => 0) (5 : ℚ) 2 3).2.2.iteration = 2 + 3 :=
  line_search_degeneracy_noop (fun _ _ => (0 : ℚ)) (fun _ => (0 : ℚ)) (3 / 10 : ℚ)
    (fun _ _ : Fin 1 => 1) (fun _ => 0) (fun _ => 0) (5 : ℚ) 2 3 lineSearchMask_const_one

/-- C8.  During distributed combination in `dist_sample_overlap`
(lines 177-192), for every statistic other than `weight`, `overlap` and
`overlap_gradient`, the accumulation succeeds exactly when the statistic's
array rank is 1, 2 or 3 (weight-weighted accumulation with the partition's
last-block weight column broadcast over the trailing axes) and raises
`NotImplementedError` for any other rank; the three special statistics never
trigger the error, whatever their rank. -/
theorem dist_combine_rank_dispatch (k : String) (dfk resk : NpArray)
    (weightLast : ℕ → ℝ) (cw : ℝ) (nruns : ℕ) :
    (k ∉ specialKeys →
      (exceptOk (combineStat k dfk resk weightLast cw nruns) = true ↔
        dfk.shape.length = 1 ∨ dfk.shape.length = 2 ∨ dfk.shape.length = 3)) ∧
    (k ∈ specialKeys → exceptOk (combineStat k dfk resk weightLast cw nruns) = true) := by
  constructor
  · intro hk
    rw [combineStat, if_pos hk]
    generalize dfk.shape.length = m
    match m with
    | 0 => simp [exceptOk]
    | 1 => simp [exceptOk]
    | 2 => simp [exceptOk]
    | 3 => simp [exceptOk]
    | (m + 4) => simp [exceptOk]
  · intro hk
    rw [combineStat, if_neg (not_not_intro hk)]
    rfl

/-- Witness for C8: the statistic `"total"` (not special) with a rank-4 shape
makes the dispatch fail the rank test, while the special statistic `"weight"`
with the same rank-4 shape is combined without error. -/
theorem dist_combine_rank_dispatch_witness :
    (exceptOk (combineStat "total" ⟨[2, 2, 2, 2], fun _ => 0⟩ ⟨[2, 2, 2, 2], fun _ => 0⟩
        (fun _ => 0) 1 1) = true ↔
      ([2, 2, 2, 2] : List ℕ).length = 1 ∨ ([2, 2, 2, 2] : List ℕ).length = 2 ∨
        ([2, 2, 2, 2] : List ℕ).length = 3) ∧
    exceptOk (combineStat "weight" ⟨[2, 2, 2, 2], fun _ => 0⟩ ⟨[2, 2, 2, 2], fun _ => 0⟩
        (fun _ => 0) 1 1) = true :=
  ⟨(dist_combine_rank_dispatch "total" _ _ _ _ _).1 (by decide),
   (dist_combine_rank_dispatch "weight" _ _ _ _ _).2 (by decide)⟩

/-- C9, counterexample.  The claim says a length mismatch between
`Starget`/`forcing` and the number of references is surfaced immediately,
before any sampling work.  With two references, `len(Starget) = 3` and
`len(forcing) = 2`, the iteration performs its sampling passes (the
renormalization `evaluate` plus one `evaluate` for the middle reference)
before the mismatch first raises, as a numpy broadcast error in the
`overlap_derivative` assembly of lines 542-545: the entry code (lines 462-464)
performs no validation at all. -/
theorem starget_forcing_immediate_error_counterexample :
    (iterEvents 2 3 2 0).1 = [OrthoEvent.sample, OrthoEvent.sample] ∧
    (iterEvents 2 3 2 0).2 = some "operands could not be broadcast together" := by
  constructor <;> rfl

/-- C9, amended.  `optimize_orthogonal` does not validate the lengths of
`Starget` and `forcing` up front: every outer iteration first runs its
sampling passes (at least one `evaluate` from the renormalization loop plus
one per middle reference), and the mismatch surfaces afterwards — with no
retry — if and only if the numpy broadcast of `overlaps` (length
`len(wfs) - 1`) with `Starget`, then of `forcing` with that result, is
impossible on lines 542-545. -/
theorem starget_forcing_mismatch_amended (nrefs lenStarget lenForcing renormRetries : ℕ) :
    0 < (iterEvents nrefs lenStarget lenForcing renormRetries).1.length ∧
    ((iterEvents nrefs lenStarget lenForcing renormRetries).2 = none ↔
      bcastCompatible nrefs lenStarget ∧
        bcastCompatible lenForcing (max nrefs lenStarget)) := by
  constructor
  · simp only [iterEvents]
    rcases overlapDerivativeLen nrefs lenStarget lenForcing with e | m
    · simp only [List.length_append, List.length_replicate]
      omega
    · simp only [List.length_append, List.length_replicate]
      omega
  · simp only [iterEvents, overlapDerivativeLen, broadcastLen]
    by_cases h1 : nrefs = lenStarget ∨ nrefs = 1 ∨ lenStarget = 1
    · by_cases h2 : lenForcing = max nrefs lenStarget ∨ lenForcing = 1 ∨
          max nrefs lenStarget = 1
      · simp [bcastCompatible, h1, h2]
      · simp [bcastCompatible, h1, h2]
    · simp [bcastCompatible, h1]

theorem csLoop_configs_preserved {α γ : Type} {nrefs nconf : ℕ} [NeZero nconf]
    (wf : WfModel α nconf) (vals0 logs0 : Fin (nrefs + 1) → Fin nconf → ℝ)
    (ps : List α) :
    ∀ st : CSState α γ,
      (csExitState (csLoop wf vals0 logs0 st ps)).configs = st.configs := by
  induction ps with
  | nil => intro st; rfl
  | cons p ps ih =>
    intro st
    rw [csLoop]
    cases wf.enacc p with
    | error e => rfl
    | ok datTotal =>
      have h := ih ({ st with activeParams := p } : CSState α γ)
      cases hl : csLoop wf vals0 logs0 ({ st with activeParams := p } : CSState α γ) ps with
      | error es =>
        rw [hl] at h
        exact h
      | ok pr =>
        rw [hl] at h
        exact h

/-- C2, counterexample.  The claim says the active wavefunction's parameters
equal their entry values after the call on every exit path, including when an
inner evaluation raises.  With entry parameters `0` and a single candidate
`1` whose `pgrad.enacc` evaluation raises, the Python function (which has no
`try/finally`; the restore of lines 288-289 runs only on normal return)
propagates the exception with the candidate parameters `1` still installed,
not the entry value `0`. -/
theorem correlated_sample_restore_counterexample :
    (csExitState (correlated_sample
        (⟨fun _ => (fun _ => 1, fun _ => 0), fun _ => .error "err"⟩ : WfModel ℕ 1)
        (Fin.elim0 : Fin 0 → (Fin 1 → ℝ) × (Fin 1 → ℝ))
        (⟨0, ()⟩ : CSState ℕ Unit) [1])).activeParams = 1 ∧
    (⟨0, ()⟩ : CSState ℕ Unit).activeParams = 0 := by
  exact ⟨rfl, rfl⟩

/-- C2, amended.  `correlated_sample` is a read-only probe on its normal
return path: whenever the call returns without raising, the active (last)
wavefunction's parameters equal the values they had on entry (lines 288-289
restore `p0` through the transform), and the walker ensemble is unchanged on
every exit path (the function never moves walkers); but when an inner
evaluation raises, the exception propagates with the failing candidate's
parameters still installed — the entry parameters are not restored on that
path. -/
theorem correlated_sample_restores_on_success {α γ : Type} {nrefs nconf : ℕ}
    [NeZero nconf] (wf : WfModel α nconf)
    (refs : Fin nrefs → (Fin nconf → ℝ) × (Fin nconf → ℝ))
    (st : CSState α γ) (ps : List α) :
    (exceptOk (correlated_sample wf refs st ps) = true →
      (csExitState (correlated_sample wf refs st ps)).activeParams = st.activeParams) ∧
    (csExitState (correlated_sample wf refs st ps)).configs = st.configs := by
  have h := csLoop_configs_preserved wf
      (fun i => ((Fin.snoc refs (wf.value st.activeParams) :
          Fin (nrefs + 1) → (Fin nconf → ℝ) × (Fin nconf → ℝ)) i).1)
      (fun i => ((Fin.snoc refs (wf.value st.activeParams) :
          Fin (nrefs + 1) → (Fin nconf → ℝ) × (Fin nconf → ℝ)) i).2)
      ps st
  cases hl : csLoop wf
      (fun i => ((Fin.snoc refs (wf.value st.activeParams) :
          Fin (nrefs + 1) → (Fin nconf → ℝ) × (Fin nconf → ℝ)) i).1)
      (fun i => ((Fin.snoc refs (wf.value st.activeParams) :
          Fin (nrefs + 1) → (Fin nconf → ℝ) × (Fin nconf → ℝ)) i).2)
      st ps with
  | error es =>
    rcases es with ⟨e, stE⟩
    rw [hl] at h
    simp only [csExitState] at h
    constructor
    · intro hok
      simp only [correlated_sample, hl, exceptOk] at hok
      exact absurd hok (by decide)
    · simp only [correlated_sample, hl, csExitState]
      exact h
  | ok pr =>
    rcases pr with ⟨data, st2⟩
    rw [hl] at h
    simp only [csExitState] at h
    constructor
    · intro hok
      simp only [correlated_sample, hl, csExitState]
    · simp only [correlated_sample, hl, csExitState]
      exact h

/-- Witness for C2 (amended): a run with one candidate whose evaluation
succeeds returns normally, with the entry parameters `5` restored and the
ensemble untouched. -/
theorem correlated_sample_restores_on_success_witness :
    exceptOk (correlated_sample
        (⟨fun _ => (fun _ => 1, fun _ => 0), fun _ => .ok fun _ => 0⟩ : WfModel ℕ 1)
        (Fin.elim0 : Fin 0 → (Fin 1 → ℝ) × (Fin 1 → ℝ))
        (⟨5, ()⟩ : CSState ℕ Unit) [7]) = true ∧
    (csExitState (correlated_sample
        (⟨fun _ => (fun _ => 1, fun _ => 0), fun _ => .ok fun _ => 0⟩ : WfModel ℕ 1)
        (Fin.elim0 : Fin 0 → (Fin 1 → ℝ) × (Fin 1 → ℝ))
        (⟨5, ()⟩ : CSState ℕ Unit) [7])).activeParams = 5 ∧
    (csExitState (correlated_sample
        (⟨fun _ => (fun _ => 1, fun _ => 0), fun _ => .ok fun _ => 0⟩ : WfModel ℕ 1)
        (Fin.elim0 : Fin 0 → (Fin 1 → ℝ) × (Fin 1 → ℝ))
        (⟨5, ()⟩ : CSState ℕ Unit) [7])).configs = () :=
  ⟨rfl,
   (correlated_sample_restores_on_success
      (⟨fun _ => (fun _ => 1, fun _ => 0), fun _ => .ok fun _ => 0⟩ : WfModel ℕ 1)
      (Fin.elim0 : Fin 0 → (Fin 1 → ℝ) × (Fin 1 → ℝ))
      (⟨5, ()⟩ : CSState ℕ Unit) [7]).1 rfl,
   (correlated_sample_restores_on_success
      (⟨fun _ => (fun _ => 1, fun _ => 0), fun _ => .ok fun _ => 0⟩ : WfModel ℕ 1)
      (Fin.elim0 : Fin 0 → (Fin 1 → ℝ) × (Fin 1 → ℝ))
      (⟨5, ()⟩ : CSState ℕ Unit) [7]).2⟩

/-- C4.  After each full electron sweep, `sample_overlap` (lines 96-106, with
`ref` the per-walker maximum log-magnitude over the wavefunctions) records as
the per-step overlap `overlap[i,j]` the walker-mean of
`(Ψᵢ exp(logmag_i − ref)) · (Ψⱼ exp(logmag_j − ref)) / Σₘ exp(2(logmag_m − ref))`,
and the block entry (lines 138-141) is the average of this per-step quantity
over the `nsteps_per_block` steps of the block. -/
theorem sample_overlap_block_overlap {nwf nconf nsteps : ℕ} [NeZero nwf]
    (vals logmags : Fin nsteps → Fin nwf → Fin nconf → ℝ) (i j : Fin nwf) :
    (∀ t, soOverlapStep (vals t) (logmags t) i j
      = specStepOverlap (vals t) (logmags t) i j) ∧
    soBlockAverage (fun t => soOverlapStep (vals t) (logmags t) i j)
      = (∑ t, specStepOverlap (vals t) (logmags t) i j) / nsteps := by
  have h : ∀ t, soOverlapStep (vals t) (logmags t) i j
      = specStepOverlap (vals t) (logmags t) i j := fun t => rfl
  refine ⟨h, ?_⟩
  rw [soBlockAverage, Finset.sum_div]
  exact Finset.sum_congr rfl fun t _ => by rw [h]

/-- Witness for C4: the formula at one wavefunction, one walker, one step,
with value `1` and log-magnitude `0`. -/
theorem sample_overlap_block_overlap_witness :
    soOverlapStep (fun _ _ => 1 : Fin 1 → Fin 1 → ℝ) (fun _ _ => 0 : Fin 1 → Fin 1 → ℝ)
        (0 : Fin 1) (0 : Fin 1)
      = specStepOverlap (fun _ _ => 1 : Fin 1 → Fin 1 → ℝ)
          (fun _ _ => 0 : Fin 1 → Fin 1 → ℝ) (0 : Fin 1) (0 : Fin 1) ∧
    soBlockAverage (fun _ : Fin 1 =>
        soOverlapStep (fun _ _ => 1 : Fin 1 → Fin 1 → ℝ)
          (fun _ _ => 0 : Fin 1 → Fin 1 → ℝ) (0 : Fin 1) (0 : Fin 1))
      = (∑ _t : Fin 1,
          specStepOverlap (fun _ _ => 1 : Fin 1 → Fin 1 → ℝ)
            (fun _ _ => 0 : Fin 1 → Fin 1 → ℝ) (0 : Fin 1) (0 : Fin 1)) /
          ((1 : ℕ) : ℝ) :=
  ⟨(sample_overlap_block_overlap (fun _ _ _ => 1 : Fin 1 → Fin 1 → Fin 1 → ℝ)
      (fun _ _ _ => 0 : Fin 1 → Fin 1 → Fin 1 → ℝ) 0 0).1 0,
   (sample_overlap_block_overlap (fun _ _ _ => 1 : Fin 1 → Fin 1 → Fin 1 → ℝ)
      (fun _ _ _ => 0 : Fin 1 → Fin 1 → Fin 1 → ℝ) 0 0).2⟩

/-- C5.  For every candidate, `correlated_sample` forms the per-walker
reweighting factor `wt = 1 / Σᵢ exp(2(logmag_i,baseline − logmag_active,candidate))`
over all wavefunctions at baseline (lines 269-271; the code writes the
exponent as `2·logmag_i,baseline − 2·logmag_candidate`), and returns the
candidate's total energy as the `wt`-weighted average of the accumulator's
per-walker total energies (line 281, `np.average(dat["total"], weights=wt)`). -/
theorem correlated_sample_energy_reweighting {nrefs nconf : ℕ} [NeZero nconf]
    (vals0 logs0 : Fin (nrefs + 1) → Fin nconf → ℝ)
    (valSign valLog datTotal : Fin nconf → ℝ) :
    csWt logs0 valLog = specWt logs0 valLog ∧
    (csCandidate vals0 logs0 valSign valLog datTotal).total
      = (∑ k, specWt logs0 valLog k * datTotal k) / (∑ k, specWt logs0 valLog k) := by
  have h : csWt logs0 valLog = specWt logs0 valLog := by
    funext k
    rw [csWt, specWt]
    congr 1
    exact Finset.sum_congr rfl fun m _ => by rw [mul_sub]
  refine ⟨h, ?_⟩
  show npAverage datTotal (csWt logs0 valLog) = _
  rw [npAverage, h]

/-- Witness for C5: the reweighting formula at one wavefunction, one walker,
baseline log-magnitudes `0` and per-walker energy `2`. -/
theorem correlated_sample_energy_reweighting_witness :
    csWt (fun _ _ => 0 : Fin 1 → Fin 1 → ℝ) (fun _ => 0)
      = specWt (fun _ _ => 0 : Fin 1 → Fin 1 → ℝ) (fun _ => 0) ∧
    (csCandidate (fun _ _ => 1 : Fin 1 → Fin 1 → ℝ) (fun _ _ => 0)
        (fun _ => 1) (fun _ => 0) (fun _ => 2)).total
      = (∑ k : Fin 1, specWt (fun _ _ => 0 : Fin 1 → Fin 1 → ℝ) (fun _ => 0) k * 2) /
          (∑ k : Fin 1, specWt (fun _ _ => 0 : Fin 1 → Fin 1 → ℝ) (fun _ => 0) k) :=
  correlated_sample_energy_reweighting (fun _ _ => 1) (fun _ _ => 0)
    (fun _ => 1) (fun _ => 0) (fun _ => 2)

/-- C3, counterexample.  The claim says `overlap[p][j]` is the walker-mean
overlap divided by `sqrt(mean(wt) · mean(rhoprime))`.  At baseline inputs
(two wavefunctions, one walker, all values `1`, all log-magnitudes `0`,
candidate equal to the baseline) the source (line 284, which divides by
`sqrt(np.mean(wt) * weight)` with `weight` the baseline vector of
lines 246-252) returns exactly `1`, while the claimed formula evaluates to
`(1/2)/sqrt(1/2) < 1`. -/
theorem cs_overlap_rescaling_counterexample :
    (csCandidate (fun _ _ => 1 : Fin 2 → Fin 1 → ℝ) (fun _ _ => 0)
        (fun _ => 1) (fun _ => 0) (fun _ => 0)).overlap 0 = 1 ∧
    specOverlapRescaled (fun _ _ => 1 : Fin 2 → Fin 1 → ℝ) (fun _ _ => 0)
        (fun _ => 1) (fun _ => 0) 0 < 1 := by
  have href : csRef (fun _ _ => 0 : Fin 2 → Fin 1 → ℝ) = 0 := by
    rw [csRef]
    exact Finset.sup'_const _ _
  have hden : ∀ k, csDenominator (fun _ _ => 0 : Fin 2 → Fin 1 → ℝ) k = 2 := by
    intro k
    rw [csDenominator, href]
    norm_num [Fin.sum_univ_two]
  have hwt : npMean (csWt (fun _ _ => 0 : Fin 2 → Fin 1 → ℝ) (fun _ => 0)) = 1 / 2 := by
    rw [npMean, Fin.sum_univ_one, csWt]
    norm_num [Fin.sum_univ_two]
  have hbw : csBaseWeight (fun _ _ => 0 : Fin 2 → Fin 1 → ℝ) 0 = 1 / 2 := by
    rw [csBaseWeight, npMean, Fin.sum_univ_one]
    norm_num [Fin.sum_univ_two]
  have hrho : npMean (csRhoprime (fun _ _ => 0 : Fin 2 → Fin 1 → ℝ) (fun _ => 0)) = 1 := by
    rw [npMean, Fin.sum_univ_one, csRhoprime, hden, href]
    norm_num [Fin.sum_univ_one]
  have hov : npMean (csOverlap (fun _ _ => 1 : Fin 2 → Fin 1 → ℝ) (fun _ _ => 0)
      (fun _ => 1) (fun _ => 0) 0) = 1 / 2 := by
    rw [npMean, Fin.sum_univ_one, csOverlap, csNormalizedVal, csNormalizedValues, hden, href]
    norm_num
  constructor
  · show npMean (csOverlap (fun _ _ => 1 : Fin 2 → Fin 1 → ℝ) (fun _ _ => 0)
        (fun _ => 1) (fun _ => 0) 0) /
      Real.sqrt (npMean (csWt (fun _ _ => 0 : Fin 2 → Fin 1 → ℝ) (fun _ => 0)) *
        csBaseWeight (fun _ _ => 0 : Fin 2 → Fin 1 → ℝ) 0) = 1
    rw [hov, hwt, hbw,
      show (1 : ℝ) / 2 * (1 / 2) = (1 / 2) ^ 2 by ring,
      Real.sqrt_sq (by norm_num : (0 : ℝ) ≤ 1 / 2)]
    norm_num
  · show npMean (csOverlap (fun _ _ => 1 : Fin 2 → Fin 1 → ℝ) (fun _ _ => 0)
        (fun _ => 1) (fun _ => 0) 0) /
      Real.sqrt (npMean (csWt (fun _ _ => 0 : Fin 2 → Fin 1 → ℝ) (fun _ => 0)) *
        npMean (csRhoprime (fun _ _ => 0 : Fin 2 → Fin 1 → ℝ) (fun _ => 0))) < 1
    rw [hov, hwt, hrho, mul_one, div_lt_one (Real.sqrt_pos.mpr (by norm_num))]
    exact (Real.lt_sqrt (by norm_num)).mpr (by norm_num)

/-- C3, amended.  For every candidate, `correlated_sample` returns
`overlap[p][j]` equal to the walker-mean of
`(normalized_candidate · normalized_j) / denominator` divided by
`sqrt(mean(wt) · base_weight[j])`, where `base_weight[j]` is the **baseline**
per-wavefunction weight of lines 246-252 (the walker-mean of
`1 / Σᵢ exp(-2(logmag_j − logmag_i))` at baseline parameters), not the
candidate's `mean(rhoprime)`. -/
theorem cs_overlap_rescaling_amended {nrefs nconf : ℕ} [NeZero nconf]
    (vals0 logs0 : Fin (nrefs + 1) → Fin nconf → ℝ)
    (valSign valLog datTotal : Fin nconf → ℝ) (j : Fin (nrefs + 1)) :
    (csCandidate vals0 logs0 valSign valLog datTotal).overlap j
      = npMean (csOverlap vals0 logs0 valSign valLog j) /
          Real.sqrt (npMean (csWt logs0 valLog) * csBaseWeight logs0 j) ∧
    csBaseWeight logs0 j
      = (∑ k, 1 / ∑ i, Real.exp (-(2 * (logs0 j k - logs0 i k)))) / nconf :=
  ⟨rfl, rfl⟩

/-- Witness for C3 (amended): the rescaling at one wavefunction, one walker,
value `1`, log-magnitude `0`, candidate equal to the baseline. -/
theorem cs_overlap_rescaling_amended_witness :
    (csCandidate (fun _ _ => 1 : Fin 1 → Fin 1 → ℝ) (fun _ _ => 0)
        (fun _ => 1) (fun _ => 0) (fun _ => 0)).overlap 0
      = npMean (csOverlap (fun _ _ => 1 : Fin 1 → Fin 1 → ℝ) (fun _ _ => 0)
          (fun _ => 1) (fun _ => 0) 0) /
          Real.sqrt (npMean (csWt (fun _ _ => 0 : Fin 1 → Fin 1 → ℝ) (fun _ => 0)) *
            csBaseWeight (fun _ _ => 0 : Fin 1 → Fin 1 → ℝ) 0) ∧
    csBaseWeight (fun _ _ => 0 : Fin 1 → Fin 1 → ℝ) 0
      = (∑ _k : Fin 1, 1 / ∑ _i : Fin 1, Real.exp (-(2 * ((0 : ℝ) - 0)))) /
          ((1 : ℕ) : ℝ) :=
  cs_overlap_rescaling_amended (fun _ _ => 1) (fun _ _ => 0)
    (fun _ => 1) (fun _ => 0) (fun _ => 0) 0

end PyqmcOrtho
